import Mathlib

/-
Verification development for the agent orchestration core of the
chijiang/allinoneagents repository.

The embedding models, over lists of characters:
  * the tool-call extractor `_parse_tool_calls` (src/app/agent/graph.py),
    including the regex search for flat brace-delimited candidates and a
    subset of the stdlib JSON parser sufficient for those candidates;
  * the tool dispatcher `_process_tool_calls`, with the registry `TOOLS`
    (src/app/tools/__init__.py) parametric in the network-bound
    execution functions of the two concrete tools;
  * the routing function `_should_use_tools`, the generation node
    `_generate_response` (the language model is an external collaborator,
    passed as a function from messages to output text), and the LangGraph
    wiring of `create_agent_executor`, as a fuel-indexed loop;
  * the answer extraction of the `/chat` endpoint (src/app/main.py).

Python dictionaries that serve as records (the agent state, the response)
become structures; the optional presence of the `tool_results` key is an
`Option`.  A Python function that can raise an exception which no caller
catches becomes `Except`.
-/

namespace AllInOne

/-- Left brace character, written via its code point. -/
def lbrace : Char := '\x7b'

/-- Right brace character, written via its code point. -/
def rbrace : Char := '\x7d'

/-- Python `needle in hay` on strings: some suffix of `hay` starts with
`needle`. -/
def strContains (hay needle : List Char) : Bool :=
  needle.isPrefixOf hay ||
    match hay with
    | [] => false
    | _ :: t => strContains t needle

/-- Splits `hay` at the first (leftmost) occurrence of `needle`,
returning the part before it and the part after it.  `none` when
`needle` does not occur.  This models one step of Python `str.split`. -/
def splitAtFirst (hay needle : List Char) : Option (List Char × List Char) :=
  match hay with
  | [] => if needle.isPrefixOf ([] : List Char) then some ([], []) else none
  | c :: t =>
    if needle.isPrefixOf (c :: t) then some ([], (c :: t).drop needle.length)
    else
      match splitAtFirst t needle with
      | none => none
      | some (b, a) => some (c :: b, a)

/-- Fuel-indexed scan for the text after the last occurrence of `sep`,
modeling `hay.split(sep)[-1]`.  The accumulator holds the best answer so
far; fuel is the length of the remaining text, which bounds the scan. -/
def afterLastGo (sep : List Char) : Nat → List Char → List Char → List Char
  | 0, _, acc => acc
  | f + 1, hay, acc =>
    match hay with
    | [] => acc
    | _ :: t =>
      if sep.isPrefixOf hay then
        afterLastGo sep f (t.drop (sep.length - 1)) (t.drop (sep.length - 1))
      else afterLastGo sep f t acc

/-- Text after the last occurrence of `sep` in `hay` (the whole of `hay`
when `sep` does not occur): Python `hay.split(sep)[-1]` for a non-empty
`sep`. -/
def afterLast (hay sep : List Char) : List Char :=
  afterLastGo sep hay.length hay hay

/-- Whitespace recognized by `str.strip` and the JSON parser (common
ASCII subset). -/
def isWsChar (c : Char) : Bool :=
  c = ' ' || c = '\t' || c = '\n' || c = '\r'

/-- Python `str.strip()` restricted to ASCII whitespace. -/
def stripWs (s : List Char) : List Char :=
  ((s.dropWhile isWsChar).reverse.dropWhile isWsChar).reverse

/-- One step of the scan modeling `re.findall` of the pattern
brace, non-braces, brace: `cur` holds the characters seen since the most
recent viable opening brace (reversed), or `none` when no match is in
progress.  A new opening brace restarts the attempt; a closing brace
with an attempt in progress emits a candidate. -/
def scanCandidates : Option (List Char) → List Char → List (List Char)
  | _, [] => []
  | cur, c :: rest =>
    if c = lbrace then scanCandidates (some []) rest
    else if c = rbrace then
      match cur with
      | some run => (lbrace :: (run.reverse ++ [rbrace])) :: scanCandidates none rest
      | none => scanCandidates none rest
    else
      match cur with
      | some run => scanCandidates (some (c :: run)) rest
      | none => scanCandidates none rest

/-- All non-overlapping leftmost matches of the regular expression
`\x7b[^\x7b\x7d]*\x7d` used at src/app/agent/graph.py line 83. -/
def findCandidates (s : List Char) : List (List Char) :=
  scanCandidates none s

/-- JSON values as produced by `json.loads` (the `arr` and `obj`
constructors also serve to model unhashable Python values at dispatch
time). -/
inductive Jvalue where
  | str (s : List Char)
  | num (n : Int)
  | bool (b : Bool)
  | null
  | arr (xs : List Jvalue)
  | obj (fields : List (List Char × Jvalue))

/-- A parsed tool-call dictionary: the key/value pairs of one extracted
JSON object. -/
abbrev CallDict := List (List Char × Jvalue)

/-- Body of a JSON string literal after the opening quote: plain
characters up to the closing quote.  Escape sequences are outside the
modeled subset and make the parse fail. -/
def jstrBody : List Char → Option (List Char × List Char)
  | [] => none
  | c :: rest =>
    if c = '"' then some ([], rest)
    else if c = '\\' then none
    else
      match jstrBody rest with
      | none => none
      | some (s, r) => some (c :: s, r)

/-- JSON string literal including the opening quote. -/
def parseJString (s : List Char) : Option (List Char × List Char) :=
  match s with
  | c :: rest => if c = '"' then jstrBody rest else none
  | [] => none

/-- Leading decimal digits as a natural number. -/
def parseDigits (s : List Char) : Option (Nat × List Char) :=
  let ds := s.takeWhile (fun c => c.isDigit)
  if ds.isEmpty then none
  else some (ds.foldl (fun a c => a * 10 + (c.toNat - 48)) 0, s.drop ds.length)

/-- JSON integer (optional minus sign followed by digits). -/
def parseJNum (s : List Char) : Option (Int × List Char) :=
  match s with
  | '-' :: rest =>
    match parseDigits rest with
    | none => none
    | some (n, r) => some (-(n : Int), r)
  | _ =>
    match parseDigits s with
    | none => none
    | some (n, r) => some ((n : Int), r)

/-- Drop leading JSON whitespace. -/
def skipWs (s : List Char) : List Char := s.dropWhile isWsChar

/-- A scalar JSON value: string, integer, `true`, `false` or `null`.
The candidates this parser is applied to are the regex matches of
`findCandidates`, which by construction contain no nested braces, so an
object value can never occur inside them; arrays and floating-point
numbers are outside the modeled subset and make the parse fail (the
corresponding candidate is then dropped rather than misread). -/
def parseJValue (s : List Char) : Option (Jvalue × List Char) :=
  match s with
  | '"' :: _ =>
    match parseJString s with
    | none => none
    | some (str, r) => some (Jvalue.str str, r)
  | _ =>
    if ("true".data).isPrefixOf s then some (Jvalue.bool true, s.drop 4)
    else if ("false".data).isPrefixOf s then some (Jvalue.bool false, s.drop 5)
    else if ("null".data).isPrefixOf s then some (Jvalue.null, s.drop 4)
    else
      match parseJNum s with
      | none => none
      | some (n, r) => some (Jvalue.num n, r)

/-- Members of a JSON object after the opening brace (at least one
member), up to and including the closing brace.  Fuel bounds the number
of members. -/
def parseJFields : Nat → List Char → Option (CallDict × List Char)
  | 0, _ => none
  | f + 1, s =>
    match parseJString (skipWs s) with
    | none => none
    | some (k, r1) =>
      match skipWs r1 with
      | c :: r2 =>
        if c = ':' then
          match parseJValue (skipWs r2) with
          | none => none
          | some (v, r3) =>
            match skipWs r3 with
            | d :: r4 =>
              if d = ',' then
                match parseJFields f r4 with
                | none => none
                | some (fs, r5) => some ((k, v) :: fs, r5)
              else if d = rbrace then some ([(k, v)], r4)
              else none
            | [] => none
        else none
      | [] => none

/-- Model of `json.loads` on a regex candidate: a full-string JSON
object with scalar values (see `parseJValue` for the modeled subset). -/
def jsonParse (s : List Char) : Option Jvalue :=
  match skipWs s with
  | c :: rest =>
    if c = lbrace then
      match skipWs rest with
      | d :: r2 =>
        if d = rbrace then
          if skipWs r2 = [] then some (Jvalue.obj []) else none
        else
          match parseJFields s.length (d :: r2) with
          | none => none
          | some (fields, r3) =>
            if skipWs r3 = [] then some (Jvalue.obj fields) else none
      | [] => none
    else none
  | [] => none

/-- Value of key `k` in a parsed dictionary; the last binding wins, as
in a Python dict built from JSON text. -/
def getKey (fields : CallDict) (k : List Char) : Option Jvalue :=
  match fields with
  | [] => none
  | (k', v) :: rest =>
    match getKey rest k with
    | some w => some w
    | none => if k' = k then some v else none

/-- The marker opening the tool-request section of the model output. -/
def toolMark : List Char := "工具调用".data

/-- The marker closing the tool-request section of the model output. -/
def endMark : List Char := "行动后思考".data

/-- Filter applied to each parsed candidate (src/app/agent/graph.py
lines 85-90): keep the dictionary only when it has both a name key and
an input key; candidates that fail to parse are dropped. -/
def keepCandidate (s : List Char) : Option CallDict :=
  match jsonParse s with
  | some (Jvalue.obj fields) =>
    if (getKey fields ("name".data)).isSome && (getKey fields ("input".data)).isSome
    then some fields else none
  | _ => none

/-- The extractor `_parse_tool_calls` (src/app/agent/graph.py lines
71-94): when the tool marker occurs, take the text between its first and
second occurrences, cut it at the first end marker, collect the regex
candidates there and keep those that parse to a dictionary with both
keys. -/
def parseToolCalls (output : List Char) : List CallDict :=
  if strContains output toolMark then
    match splitAtFirst output toolMark with
    | none => []
    | some (_, afterFirst) =>
      let part1 :=
        match splitAtFirst afterFirst toolMark with
        | none => afterFirst
        | some (b, _) => b
      let toolPart :=
        match splitAtFirst part1 endMark with
        | none => part1
        | some (b, _) => b
      (findCandidates toolPart).filterMap keepCandidate
  else []

/-! ## Tool dispatch -/

/-- Outcome of dispatching one tool call, modeling the two dictionary
shapes appended by `_process_tool_calls`: a result entry (tool name with
the dumped output) or an error entry (tool name with the message of the
caught exception). -/
inductive ToolResult where
  | success (tool_name : List Char) (result : Jvalue)
  | failure (tool_name : List Char) (error : List Char)

/-- The `run` method of a tool: validation of the raw input against the
pydantic schema followed by execution, either of which may raise; the
whole call is modeled as a function that returns the output value or the
text of the raised exception.  The concrete tools perform network
requests, so their behavior is a parameter of the model. -/
def Tool : Type := Jvalue → Except (List Char) Jvalue

/-- The tool registry: an association of names to tools, built once at
startup. -/
abbrev Registry := List (List Char × Tool)

/-- Lookup in the registry, modeling `TOOLS.get(name)` for a string
name. -/
def lookupTool (reg : Registry) (k : List Char) : Option Tool :=
  match reg with
  | [] => none
  | (k', t) :: rest => if k' = k then some t else lookupTool rest k

/-- The registry of src/app/tools/__init__.py: the keys are fixed, the
execution functions of the two tools are external collaborators. -/
def TOOLS (searchRun zhihuRun : Tool) : Registry :=
  [("search".data, searchRun), ("zhihu_hot".data, zhihuRun)]

/-- A tool execution that ignores its input and returns an empty
object, standing in for a tool whose network call succeeds. -/
def dummyRun : Tool := fun _ => Except.ok (Jvalue.obj [])

/-- The registry with both concrete tools succeeding trivially. -/
def TOOLSD : Registry := TOOLS dummyRun dummyRun

/-- The value of `call.get("name")`. -/
def callName (c : CallDict) : Option Jvalue := getKey c ("name".data)

/-- The value of `call.get("input", dict())`. -/
def callInput (c : CallDict) : Jvalue :=
  (getKey c ("input".data)).getD (Jvalue.obj [])

/-- The dispatch loop of `_process_tool_calls` (src/app/agent/graph.py
lines 97-121).  For each call: look the name up in `TOOLS`; a registered
tool is run inside a try block whose except clause records an error
entry; an unregistered or missing name makes `TOOLS.get` return a falsy
value and the call is skipped with no entry at all.  Looking up an
unhashable name (a list or dictionary) raises a TypeError outside the
try block, which propagates: that is the `Except.error` case. -/
def processToolCalls (reg : Registry) : List CallDict → Except Unit (List ToolResult)
  | [] => Except.ok []
  | call :: rest =>
    match callName call with
    | some (Jvalue.arr _) => Except.error ()
    | some (Jvalue.obj _) => Except.error ()
    | some (Jvalue.str s) =>
      match lookupTool reg s with
      | some tool =>
        let r :=
          match tool (callInput call) with
          | Except.ok out => ToolResult.success s out
          | Except.error msg => ToolResult.failure s msg
        (processToolCalls reg rest).map (fun rs => r :: rs)
      | none => processToolCalls reg rest
    | _ => processToolCalls reg rest

/-- The result contributed by a single call, when dispatch reaches it:
`none` for a call whose name is absent, not a string, or not registered.
Used to restate the dispatch loop as a filterMap. -/
def execCall (reg : Registry) (call : CallDict) : Option ToolResult :=
  match callName call with
  | some (Jvalue.str s) =>
    match lookupTool reg s with
    | some tool =>
      some (match tool (callInput call) with
            | Except.ok out => ToolResult.success s out
            | Except.error msg => ToolResult.failure s msg)
    | none => none
  | _ => none

/-- A call whose name field can be used as a dictionary key without a
TypeError (anything except a list or a dictionary). -/
def hashableName (call : CallDict) : Bool :=
  match callName call with
  | some (Jvalue.arr _) => false
  | some (Jvalue.obj _) => false
  | _ => true

/-- Every call in the batch names a registered tool. -/
def allRegistered (reg : Registry) (calls : List CallDict) : Prop :=
  ∀ c ∈ calls, ∃ s tool, callName c = some (Jvalue.str s) ∧ lookupTool reg s = some tool

/-- A call dictionary with a string name and the given input value, the
shape the extractor produces for a well-formed request. -/
def mkCall (s : List Char) (i : Jvalue) : CallDict :=
  [("name".data, Jvalue.str s), ("input".data, i)]

/-! ## Agent state and graph nodes -/

/-- One prompt or response message, as a langchain `HumanMessage` or
`AIMessage`. -/
inductive Message where
  | human (content : List Char)
  | ai (content : List Char)

/-- Content of a message. -/
def Message.content : Message → List Char
  | Message.human c => c
  | Message.ai c => c

/-- One prior turn of the caller-supplied chat history. -/
structure ChatMsg where
  role : List Char
  content : List Char

/-- The `AgentState` TypedDict of src/app/agent/graph.py.  The
`tool_results` field is optional because the initial state of the /chat
endpoint does not set that key; `none` models the absent key. -/
structure AgentState where
  question : List Char
  chat_history : List ChatMsg
  messages : List Message
  tool_calls : List CallDict
  tool_results : Option (List ToolResult)

/-- History turns converted to messages (src/app/agent/graph.py lines
143-150): user turns become human messages, assistant turns become AI
messages, anything else is skipped. -/
def historyMessages (h : List ChatMsg) : List Message :=
  h.filterMap (fun m =>
    if m.role = ("user".data) then some (Message.human m.content)
    else if m.role = ("assistant".data) then some (Message.ai m.content)
    else none)

/-- Serialization of a JSON value as `json.dumps(value,
ensure_ascii=False)` produces it (default separators), with fuel
bounding the nesting depth; string escaping is outside the modeled
subset. -/
def dumpJsonF : Nat → Jvalue → List Char
  | 0, _ => []
  | f + 1, v =>
    match v with
    | Jvalue.str s => '"' :: (s ++ ['"'])
    | Jvalue.num n => (toString n).data
    | Jvalue.bool true => "true".data
    | Jvalue.bool false => "false".data
    | Jvalue.null => "null".data
    | Jvalue.arr xs =>
      '[' :: (List.intercalate (", ".data) (xs.map (dumpJsonF f)) ++ [']'])
    | Jvalue.obj fs =>
      lbrace ::
        (List.intercalate (", ".data)
          (fs.map (fun p => '"' :: (p.1 ++ ("\": ".data ++ dumpJsonF f p.2)))) ++ [rbrace])

/-- `json.dumps` with a fixed generous fuel: faithful for every value
whose nesting depth is below 1000, which covers everything the modeled
system produces. -/
def dumpJson (v : Jvalue) : List Char := dumpJsonF 1000 v

/-- The line rendered for one tool result in the next prompt
(src/app/agent/graph.py lines 157-163). -/
def renderResult (r : ToolResult) : List Char :=
  match r with
  | ToolResult.failure n e => n ++ (" 执行失败: ".data ++ (e ++ "\n".data))
  | ToolResult.success n d => n ++ (" 执行结果: ".data ++ (dumpJson d ++ "\n".data))

/-- The current prompt of `_generate_response` (lines 153-163): the
question line, followed by the rendered tool results when the previous
dispatch step produced a non-empty list. -/
def currentPrompt (st : AgentState) : List Char :=
  let base := "用户问题: ".data ++ (st.question ++ "\n".data)
  let trs := st.tool_results.getD []
  if trs.isEmpty then base
  else base ++ ("工具执行结果:\n".data ++ (trs.map renderResult).flatten)

/-- The message list handed to the model on one generation step:
history messages followed by the current prompt.  The reply of the
model is never appended to this list. -/
def builtMessages (st : AgentState) : List Message :=
  historyMessages st.chat_history ++ [Message.human (currentPrompt st)]

/-- The generation node `_generate_response` (lines 132-181): invoke the
model on the built messages, extract tool calls from its output, and
merge the new `messages` and `tool_calls` keys over the state.  The
model is an external collaborator passed as a function.  The system
prompt is formatted on line 140 but never added to the messages. -/
def generateNode (model : List Message → List Char) (st : AgentState) : AgentState :=
  let output := model (builtMessages st)
  { st with messages := builtMessages st, tool_calls := parseToolCalls output }

/-- The dispatch node `_process_tool_calls` at the state level.  The
returned Python dictionary is written as the tool-results key followed
by the unpacked state, so every key already present in the state, the
previously stored tool-results value included, overrides the freshly
computed one; only when the state has no tool-results key yet does the
new batch reach the state. -/
def processNode (reg : Registry) (st : AgentState) : Except Unit AgentState :=
  match processToolCalls reg st.tool_calls with
  | Except.error e => Except.error e
  | Except.ok results =>
    Except.ok { st with
      tool_results := some (match st.tool_results with
                            | some old => old
                            | none => results) }

/-- The router `_should_use_tools` (lines 124-129). -/
def shouldUseTools (st : AgentState) : List Char :=
  if st.tool_calls.isEmpty then "finish".data else "use_tools".data

/-- The compiled graph of `create_agent_executor` (lines 184-223) as a
fuel-indexed loop: generate, then either finish (returning the final
state) or dispatch and loop.  `Except.ok none` means the loop was still
running when the fuel ran out, which is how the absence of any iteration
cap in the graph itself is observed; the generic recursion limit of the
framework aborts such a run with an error rather than producing a
state. -/
def runAgent (reg : Registry) (model : List Message → List Char) :
    Nat → AgentState → Except Unit (Option AgentState)
  | 0, _ => Except.ok none
  | n + 1, st =>
    let st1 := generateNode model st
    if shouldUseTools st1 = ("use_tools".data) then
      match processNode reg st1 with
      | Except.error e => Except.error e
      | Except.ok st2 => runAgent reg model n st2
    else Except.ok (some st1)

/-! ## The /chat request boundary -/

/-- The initial state built by the /chat endpoint (src/app/main.py lines
80-85); note the absent tool-results key. -/
def initState (q : List Char) (h : List ChatMsg) : AgentState :=
  { question := q, chat_history := h, messages := [], tool_calls := [],
    tool_results := none }

/-- The fixed fallback answer of the /chat endpoint. -/
def FALLBACK : List Char := "抱歉，我无法处理您的请求。".data

/-- The final-answer marker. -/
def ansMark : List Char := "回答：".data

/-- Answer recovery of the /chat endpoint (src/app/main.py lines
90-109): take the content of the last message when there is one; cut it
after the last final-answer marker and strip it when the marker occurs;
fall back to the fixed string when nothing non-empty was recovered. -/
def extractAnswer (messages : List Message) : List Char :=
  match messages.getLast? with
  | none => FALLBACK
  | some m =>
    let output := m.content
    let output :=
      if strContains output ansMark then stripWs (afterLast output ansMark)
      else output
    if output = [] then FALLBACK else output

/-- The response record of the /chat endpoint. -/
structure AgentResp where
  answer : List Char
  tool_calls : List CallDict
  tool_results : List ToolResult

/-- The response assembled from the final state (src/app/main.py lines
91-112). -/
def chatResponse (st : AgentState) : AgentResp :=
  { answer := extractAnswer st.messages,
    tool_calls := st.tool_calls,
    tool_results := st.tool_results.getD [] }

/-! ## Concrete scenarios

Model stubs (the language model is an external collaborator, so test
scenarios fix it to a function) and the concrete states they reach. -/

/-- The scenario output of the specification: a tool request whose
input is itself a JSON object, exactly the shape the system prompt of
src/app/agent/graph.py instructs the model to produce. -/
def c1Scenario : List Char :=
  "工具调用 \x7b\"name\":\"search\",\"input\":\x7b\"query\":\"x\"\x7d\x7d 行动后思考".data

/-- The tool-request section of `c1Scenario` (the text the extractor
scans for candidates). -/
def c1Section : List Char :=
  " \x7b\"name\":\"search\",\"input\":\x7b\"query\":\"x\"\x7d\x7d ".data

/-- A model output with a tool request whose input is a plain string,
the only shape the candidate regex can match in full. -/
def outSearch : List Char :=
  "工具调用 \x7b\"name\": \"search\", \"input\": \"x\"\x7d 行动后思考".data

/-- Like `outSearch` but requesting the other registered tool. -/
def outZhihu : List Char :=
  "工具调用 \x7b\"name\": \"zhihu_hot\", \"input\": \"x\"\x7d 行动后思考".data

/-- A model output with a name key but no input key in its tool
request. -/
def c8out : List Char := "工具调用 \x7b\"name\":\"t\"\x7d 行动后思考".data

/-- The call dictionary extracted from `outSearch`. -/
def searchCall : CallDict := mkCall ("search".data) (Jvalue.str ("x".data))

/-- The call dictionary extracted from `outZhihu`. -/
def zhihuCall : CallDict := mkCall ("zhihu_hot".data) (Jvalue.str ("x".data))

/-- A model stub that answers in plain text without any tool-request
marker. -/
def stubC2 : List Message → List Char := fun _ => "今天天气晴朗".data

/-- A model stub that requests a tool on every output. -/
def stubLoop : List Message → List Char := fun _ => outSearch

/-- A model stub that requests the search tool first and, once the
prompt carries tool results, requests the zhihu tool: it drives two
distinct dispatch batches in one request. -/
def stubC5 : List Message → List Char := fun msgs =>
  if strContains ((msgs.getLast?.map Message.content).getD []) ("工具执行结果".data)
  then outZhihu else outSearch

/-- A plain-text model stub for witnesses. -/
def stubPlain : List Message → List Char := fun _ => "你好".data

/-- A tool execution that raises: its `run` fails with a fixed
message. -/
def failRun : Tool := fun _ => Except.error ("boom".data)

/-- State after the first generation step of the `stubC5` scenario. -/
def c5st1v : AgentState :=
  { question := "hi".data, chat_history := [],
    messages := [Message.human ("用户问题: hi\n".data)],
    tool_calls := [searchCall], tool_results := none }

/-- State after the first dispatch step: the search batch is stored. -/
def c5st2v : AgentState :=
  { c5st1v with
    tool_results := some [ToolResult.success ("search".data) (Jvalue.obj [])] }

/-- State after the second generation step: the model now requests the
zhihu tool. -/
def c5st3v : AgentState :=
  { c5st2v with
    messages :=
      [Message.human ("用户问题: hi\n工具执行结果:\nsearch 执行结果: \x7b\x7d\n".data)],
    tool_calls := [zhihuCall] }

/-- The final state reached by the plain no-marker scenario, as the
/chat endpoint reads it. -/
def c2Final : Option AgentState :=
  match runAgent TOOLSD stubC2 5 (initState ("weather today".data) []) with
  | Except.ok r => r
  | Except.error _ => none

/-! ## Theorems -/

/-- Dispatch characterization shared by several results below: on a
batch whose name fields can all be used as dictionary keys, the
dispatch loop raises nothing and returns, in request order, exactly the
results of the calls that name a registered tool. -/
theorem processToolCalls_ok (reg : Registry) :
    ∀ calls : List CallDict, (∀ c ∈ calls, hashableName c = true) →
      processToolCalls reg calls = Except.ok (calls.filterMap (execCall reg)) := by
  intro calls
  induction calls with
  | nil => intro _; rfl
  | cons c rest ih =>
    intro h
    have hc : hashableName c = true := h c (List.mem_cons_self c rest)
    have hrest := ih (fun x hx => h x (List.mem_cons_of_mem c hx))
    cases hn : callName c with
    | none =>
      simp only [processToolCalls, hn, List.filterMap_cons, execCall, hrest]
    | some v =>
      cases v with
      | str s =>
        cases hl : lookupTool reg s with
        | none =>
          simp only [processToolCalls, hn, hl, List.filterMap_cons, execCall, hrest]
        | some tool =>
          cases he : tool (callInput c) with
          | ok out =>
            simp only [processToolCalls, hn, hl, he, List.filterMap_cons, execCall,
              hrest, Except.map]
          | error msg =>
            simp only [processToolCalls, hn, hl, he, List.filterMap_cons, execCall,
              hrest, Except.map]
      | num n => simp only [processToolCalls, hn, List.filterMap_cons, execCall, hrest]
      | bool b => simp only [processToolCalls, hn, List.filterMap_cons, execCall, hrest]
      | null => simp only [processToolCalls, hn, List.filterMap_cons, execCall, hrest]
      | arr xs => rw [hashableName, hn] at hc; exact absurd hc (by simp)
      | obj fs => rw [hashableName, hn] at hc; exact absurd hc (by simp)

/-- C1, evaluation at the failing input.  On the scenario output whose
tool request carries a nested input object — the very shape the system
prompt of graph.py instructs the model to emit — the extractor returns
no call at all: the candidate regex cannot match an object containing a
nested object, so the only candidate it finds in the tool-request
section is the inner input object, which lacks the name and input keys
and is dropped.  The claim says exactly one call named search is
returned. -/
theorem c1_code_eval :
    parseToolCalls c1Scenario = []
    ∧ findCandidates c1Section = [("\x7b\"query\":\"x\"\x7d".data)] := ⟨rfl, rfl⟩

/-- C2, evaluation at the failing input.  For the question weather
today and a marker-free model output, the loop does end after one
generation step with no tool calls — but the answer assembled at the
request boundary is the text of the last prompt message (the question
line), not the text of the model output, because the generation node
never appends the model reply to the messages it stores.  The claim
says the answer equals the model text. -/
theorem c2_code_eval :
    (c2Final.map (fun st => (chatResponse st).answer))
        = some ("用户问题: weather today\n".data)
    ∧ (c2Final.map (fun st => st.tool_calls)) = some []
    ∧ ("用户问题: weather today\n".data) ≠ ("今天天气晴朗".data) :=
  ⟨rfl, rfl, by decide⟩

/-- C3, corrected.  A call naming an unregistered tool is skipped
entirely by the dispatch loop: no result is appended for it, no
exception is raised, and the remaining calls are processed as if it
were absent.  (The claim said a Failure result carrying a tool-not-found
message is appended; see the counterexample.) -/
theorem c3_unregistered_skipped (reg : Registry) (s : List Char) (i : Jvalue)
    (rest : List CallDict) (h : lookupTool reg s = none) :
    processToolCalls reg (mkCall s i :: rest) = processToolCalls reg rest := by
  have hn : callName (mkCall s i) = some (Jvalue.str s) := rfl
  simp only [processToolCalls, hn, h]

/-- Witness for C3: the name nonexistent is not registered, and
dispatching the one call naming it equals dispatching the empty
batch. -/
theorem c3_witness :
    lookupTool TOOLSD ("nonexistent".data) = none
    ∧ processToolCalls TOOLSD [mkCall ("nonexistent".data) (Jvalue.obj [])]
        = processToolCalls TOOLSD [] :=
  ⟨rfl, c3_unregistered_skipped TOOLSD ("nonexistent".data) (Jvalue.obj []) [] rfl⟩

/-- Counterexample for C3 as stated: dispatching one call naming the
unregistered tool nonexistent yields the empty result list, not exactly
one Failure carrying that name. -/
theorem c3_counterexample :
    processToolCalls TOOLSD [mkCall ("nonexistent".data) (Jvalue.obj [])] = Except.ok []
    ∧ ¬ ∃ msg, processToolCalls TOOLSD [mkCall ("nonexistent".data) (Jvalue.obj [])]
        = Except.ok [ToolResult.failure ("nonexistent".data) msg] := by
  refine ⟨rfl, ?_⟩
  rintro ⟨msg, h⟩
  rw [show processToolCalls TOOLSD [mkCall ("nonexistent".data) (Jvalue.obj [])]
        = Except.ok [] from rfl] at h
  simp at h

/-- C4, corrected.  The dispatcher produces exactly one result per call
that names a registered tool, in the order the calls were requested;
calls naming unregistered tools contribute no result at all, so the
output can be shorter than the input batch.  (The claim said one result
per call of the batch; see the counterexample.) -/
theorem c4_results_per_registered_call (reg : Registry) (calls : List CallDict)
    (h : ∀ c ∈ calls, hashableName c = true) :
    processToolCalls reg calls = Except.ok (calls.filterMap (execCall reg)) :=
  processToolCalls_ok reg calls h

/-- Witness for C4 on a concrete mixed batch: registered, unregistered,
registered. -/
theorem c4_witness :
    processToolCalls TOOLSD [searchCall, mkCall ("missing".data) (Jvalue.obj []), zhihuCall]
      = Except.ok (List.filterMap (execCall TOOLSD)
          [searchCall, mkCall ("missing".data) (Jvalue.obj []), zhihuCall]) :=
  c4_results_per_registered_call TOOLSD
    [searchCall, mkCall ("missing".data) (Jvalue.obj []), zhihuCall] (by decide)

/-- Counterexample for C4 as stated: a batch of two calls, one of them
naming an unregistered tool, produces one result, not two. -/
theorem c4_counterexample :
    processToolCalls TOOLSD [searchCall, mkCall ("nope".data) (Jvalue.obj [])]
      = Except.ok [ToolResult.success ("search".data) (Jvalue.obj [])]
    ∧ [ToolResult.success ("search".data) (Jvalue.obj [])].length ≠ 2 :=
  ⟨rfl, by decide⟩

/-- C5, evaluation at the failing trace.  Generate, dispatch, generate,
dispatch with two distinct batches: after the second dispatch step the
stored tool results are still the first batch (the search results) even
though the batch actually dispatched in that step produced the
zhihu-hot results, because the dispatch node writes the fresh results
before unpacking the old state over them.  The claim says the field is
cleared and repopulated on every dispatch step. -/
theorem c5_code_eval :
    generateNode stubC5 (initState ("hi".data) []) = c5st1v
    ∧ processNode TOOLSD c5st1v = Except.ok c5st2v
    ∧ generateNode stubC5 c5st2v = c5st3v
    ∧ processNode TOOLSD c5st3v = Except.ok c5st3v
    ∧ c5st3v.tool_results = some [ToolResult.success ("search".data) (Jvalue.obj [])]
    ∧ processToolCalls TOOLSD c5st3v.tool_calls
        = Except.ok [ToolResult.success ("zhihu_hot".data) (Jvalue.obj [])] :=
  ⟨rfl, rfl, rfl, rfl, rfl, rfl⟩

/-- C6, corrected.  The compiled graph enforces no maximum number of
generation entries: with a model stub that emits a parseable tool
request on every output, the loop is still running after any number of
steps, for every starting state — it never reaches the finish
transition, with or within any configured bound.  (The claim said a
configurable cap forces termination with a truncated answer; see the
counterexample.) -/
theorem c6_no_cap : ∀ (n : Nat) (st : AgentState),
    runAgent TOOLSD stubLoop n st = Except.ok none := by
  intro n
  induction n with
  | zero => intro st; rfl
  | succ k ih => intro st; exact ih _

/-- Counterexample for C6 as stated: from the initial state of a
request, twelve steps — beyond the recommended default cap of five to
ten — leave the always-tool-requesting loop still running. -/
theorem c6_counterexample :
    runAgent TOOLSD stubLoop 12 (initState ("q".data) []) = Except.ok none := by
  have h : ∀ (n : Nat) (st : AgentState),
      runAgent TOOLSD stubLoop n st = Except.ok none := by
    intro n
    induction n with
    | zero => intro st; rfl
    | succ k ih => intro st; exact ih _
  exact h 12 (initState ("q".data) [])

/-- C7, confirmed.  In a batch of calls naming registered tools, a call
whose tool run raises is recorded as a failure result carrying that
tool name and the error message, at its position in the batch, and the
calls before and after it are dispatched normally: nothing propagates
out of the dispatcher. -/
theorem c7_failure_isolated (reg : Registry) (pre post : List CallDict) (c : CallDict)
    (s : List Char) (tool : Tool) (e : List Char)
    (hpre : allRegistered reg pre) (hpost : allRegistered reg post)
    (hn : callName c = some (Jvalue.str s))
    (ht : lookupTool reg s = some tool)
    (he : tool (callInput c) = Except.error e) :
    processToolCalls reg (pre ++ c :: post)
      = Except.ok (pre.filterMap (execCall reg)
          ++ ToolResult.failure s e :: post.filterMap (execCall reg)) := by
  have hall : ∀ x ∈ pre ++ c :: post, hashableName x = true := by
    intro x hx
    rcases List.mem_append.mp hx with hx | hx
    · obtain ⟨s', t', hn', -⟩ := hpre x hx
      simp [hashableName, hn']
    · rcases List.mem_cons.mp hx with rfl | hx
      · simp [hashableName, hn]
      · obtain ⟨s', t', hn', -⟩ := hpost x hx
        simp [hashableName, hn']
  rw [processToolCalls_ok reg _ hall, List.filterMap_append, List.filterMap_cons]
  have hx : execCall reg c = some (ToolResult.failure s e) := by
    simp [execCall, hn, ht, he]
  rw [hx]

/-- Witness for C7: with the search tool raising boom and the zhihu
tool succeeding, the batch search-then-zhihu yields the failure entry
followed by the dispatch of the remaining call. -/
theorem c7_witness :
    processToolCalls (TOOLS failRun dummyRun) ([] ++ searchCall :: [zhihuCall])
      = Except.ok (List.filterMap (execCall (TOOLS failRun dummyRun)) []
          ++ ToolResult.failure ("search".data) ("boom".data)
            :: List.filterMap (execCall (TOOLS failRun dummyRun)) [zhihuCall]) := by
  refine c7_failure_isolated (TOOLS failRun dummyRun) [] [zhihuCall] searchCall
    ("search".data) failRun ("boom".data) ?_ ?_ rfl rfl rfl
  · intro x hx
    exact absurd hx (List.not_mem_nil x)
  · intro x hx
    rw [List.mem_singleton] at hx
    subst hx
    exact ⟨"zhihu_hot".data, dummyRun, rfl, rfl⟩

/-- C8, corrected.  Every call the extractor produces carries both a
name key and an input key: an extracted JSON object that lacks the
input key is dropped, not completed with an empty mapping.  (The
empty-mapping default exists only in the dispatcher, which reads the
input key with a default; see the counterexample for the extractor
behavior the claim asserted.) -/
theorem c8_extracted_calls_have_both_keys (output : List Char) (call : CallDict)
    (h : call ∈ parseToolCalls output) :
    (getKey call ("name".data)).isSome = true
    ∧ (getKey call ("input".data)).isSome = true := by
  unfold parseToolCalls at h
  split at h
  · split at h
    · exact absurd h (List.not_mem_nil call)
    · obtain ⟨cand, hcand, hk⟩ := List.mem_filterMap.mp h
      unfold keepCandidate at hk
      split at hk
      · split at hk
        · next hcond =>
          simp only [Bool.and_eq_true] at hcond
          injection hk with hk
          subst hk
          exact hcond
        · exact absurd hk.symm (Option.some_ne_none call)
      · simp at hk
  · exact absurd h (List.not_mem_nil call)

/-- Counterexample for C8 as stated: for the output whose tool request
has a name key but no input key, the extractor produces no call at all,
in particular none named t. -/
theorem c8_counterexample :
    parseToolCalls c8out = []
    ∧ ¬ ∃ call, call ∈ parseToolCalls c8out
        ∧ getKey call ("name".data) = some (Jvalue.str ("t".data)) := by
  refine ⟨rfl, ?_⟩
  rintro ⟨call, hmem, -⟩
  rw [show parseToolCalls c8out = [] from rfl] at hmem
  exact absurd hmem (List.not_mem_nil call)

/-- Witness for C8: the one call extracted from the well-formed
flat-input output has both keys. -/
theorem c8_witness :
    (getKey searchCall ("name".data)).isSome = true
    ∧ (getKey searchCall ("input".data)).isSome = true :=
  c8_extracted_calls_have_both_keys outSearch searchCall
    (by rw [show parseToolCalls outSearch = [searchCall] from rfl]
        exact List.mem_singleton.mpr rfl)

/-- C9, confirmed.  After a generation step exactly one of two things
holds: the extracted tool calls are non-empty and the router sends the
state to the dispatch node, or the router sends it to the finish edge
and the loop terminates with that state.  Moreover, for any model
output without the tool marker the extractor returns the empty sequence
and the loop terminates in that single generation step. -/
theorem c9_generation_dichotomy (reg : Registry) (model : List Message → List Char)
    (fuel : Nat) (st : AgentState) :
    (Xor' ((generateNode model st).tool_calls ≠ []
            ∧ shouldUseTools (generateNode model st) = ("use_tools".data))
          ((generateNode model st).tool_calls = []
            ∧ shouldUseTools (generateNode model st) = ("finish".data)
            ∧ runAgent reg model (fuel + 1) st = Except.ok (some (generateNode model st))))
    ∧ (strContains (model (builtMessages st)) toolMark = false →
        parseToolCalls (model (builtMessages st)) = []
        ∧ runAgent reg model (fuel + 1) st = Except.ok (some (generateNode model st))) := by
  have htc : (generateNode model st).tool_calls
      = parseToolCalls (model (builtMessages st)) := rfl
  have key : ∀ he : (generateNode model st).tool_calls = [],
      shouldUseTools (generateNode model st) = ("finish".data)
      ∧ runAgent reg model (fuel + 1) st = Except.ok (some (generateNode model st)) := by
    intro he
    have hfin : shouldUseTools (generateNode model st) = ("finish".data) := by
      unfold shouldUseTools
      rw [he]
      rfl
    refine ⟨hfin, ?_⟩
    show (if shouldUseTools (generateNode model st) = ("use_tools".data) then
            match processNode reg (generateNode model st) with
            | Except.error e => Except.error e
            | Except.ok st2 => runAgent reg model fuel st2
          else Except.ok (some (generateNode model st)))
        = Except.ok (some (generateNode model st))
    rw [hfin]
    simp
  constructor
  · by_cases he : (generateNode model st).tool_calls = []
    · refine Or.inr ⟨⟨he, key he⟩, ?_⟩
      rintro ⟨hne, -⟩
      exact hne he
    · refine Or.inl ⟨⟨he, ?_⟩, ?_⟩
      · unfold shouldUseTools
        cases hl : (generateNode model st).tool_calls with
        | nil => exact absurd hl he
        | cons a t => rfl
      · rintro ⟨hempty, -⟩
        exact he hempty
  · intro hm
    have hpe : parseToolCalls (model (builtMessages st)) = [] := by
      unfold parseToolCalls
      rw [hm]
      rfl
    exact ⟨hpe, (key (htc.trans hpe)).2⟩

/-- Witness for C9: a marker-free model stub makes the extractor return
nothing and the loop finish in one step. -/
theorem c9_witness :
    parseToolCalls (stubPlain (builtMessages (initState ("hi".data) []))) = []
    ∧ runAgent TOOLSD stubPlain (0 + 1) (initState ("hi".data) [])
        = Except.ok (some (generateNode stubPlain (initState ("hi".data) []))) :=
  (c9_generation_dichotomy TOOLSD stubPlain 0 (initState ("hi".data) [])).2 rfl

/-- C10, confirmed.  Whenever no answer text can be recovered from the
final state — the messages are empty, or the last message has empty
content — the /chat endpoint still answers successfully with the fixed
fallback string. -/
theorem c10_fallback (st : AgentState)
    (h : st.messages = [] ∨ ∃ m, st.messages.getLast? = some m ∧ m.content = []) :
    (chatResponse st).answer = FALLBACK := by
  rcases h with h | ⟨m, hm, hc⟩
  · show extractAnswer st.messages = FALLBACK
    rw [h]
    rfl
  · show extractAnswer st.messages = FALLBACK
    unfold extractAnswer
    rw [hm]
    cases m with
    | human c =>
      have hce : c = [] := hc
      subst hce
      rfl
    | ai c =>
      have hce : c = [] := hc
      subst hce
      rfl

/-- Witness for C10: the empty initial message list already yields the
fallback answer. -/
theorem c10_witness :
    (chatResponse (initState ("hi".data) [])).answer = FALLBACK :=
  c10_fallback (initState ("hi".data) []) (Or.inl rfl)

end AllInOne
